import Mathlib

/-!
Verification of the GetTotal code-metrics engine (src/GetTotal.py).

The Python source is shallowly embedded below.  Strings are modelled as
`List Char` (Python string indexing is positional), Python `str.strip`
as `pyStrip`, `sub in s` / `s.find(sub)` / `s.find(sub, start)` as
`subContains` / `subFind` / `subFindFrom`.  The per-file scanner
`CodeAnalyzer.analyze_file` becomes `analyzeLines` (the file-reading
I/O is outside the model: the scanner receives the list of lines).
-/

namespace GetTotal

/-- Python `str.strip()` whitespace characters (ASCII part; the scanned
claims only involve ASCII whitespace). -/
def pyIsSpace (c : Char) : Bool :=
  c = ' ' || c = '\t' || c = '\n' || c = '\r' || c = '\x0b' || c = '\x0c'

/-- Python `str.strip()`: drop leading and trailing whitespace. -/
def pyStrip (l : List Char) : List Char :=
  ((l.dropWhile pyIsSpace).reverse.dropWhile pyIsSpace).reverse

/-- Python `hay.find(needle)`: index of the first occurrence of `needle`
in `hay`, `none` when absent (Python returns `-1`). -/
def subFind (hay needle : List Char) : Option Nat :=
  match hay with
  | [] => if needle.isPrefixOf ([] : List Char) then some 0 else none
  | c :: t =>
    if needle.isPrefixOf (c :: t) then some 0
    else (subFind t needle).map (· + 1)

/-- Python `needle in hay` (substring test). -/
def subContains (hay needle : List Char) : Bool :=
  (subFind hay needle).isSome

/-- Python `hay.find(needle, start)`. -/
def subFindFrom (hay needle : List Char) (start : Nat) : Option Nat :=
  (subFind (hay.drop start) needle).map (· + start)

/-- The metrics record produced by `CodeAnalyzer.analyze_file`
(the `file_path` / `file_name` fields are carried separately in the
snapshot model below). -/
structure Metrics where
  total_lines : Nat
  empty_lines : Nat
  comment_lines : Nat
  code_lines : Nat
deriving DecidableEq, Repr

/-- One entry of the language rule table (`DEFAULT_LANGUAGES` values).
`single_line_comment` is normalized to a list of markers, mirroring the
`isinstance(..., list)` wrapping in `analyze_file`; `string_delimiters`
is carried but never consulted by the scanner, exactly as in the source. -/
structure LanguageConfig where
  extensions : List String
  singleLineComment : List (List Char)
  multiLineComment : List (List Char × List Char)
  stringDelimiters : List Char
deriving Repr

/-- Outcome of the multi-line-comment `for` loop of `analyze_file` for one
line: the comment/code increments, the new block-comment state, and whether
the loop set `line_comment_check = ""` (it does so exactly when it breaks,
so one flag models both). -/
structure BlockOut where
  dComment : Nat
  dCode : Nat
  state : Option (List Char)
  consumed : Bool
deriving DecidableEq, Repr

/-- The `for start_marker, end_marker in multi_line_comments` loop of
`analyze_file` (lines 131-167 of src/GetTotal.py), acting on the stripped
line `lc`.  The block-comment state is `some endMarker` when
`in_block_comment` is true (the source keeps `in_block_comment` and
`block_comment_end` in lockstep: one is set/cleared exactly when the
other is).  When the loop body is never entered (`multi_line_comments`
empty) nothing changes and the line is not consumed; when
`in_block_comment` holds the first iteration counts the line as comment,
closes the block if the stored end marker occurs, and breaks; otherwise a
pair whose start marker occurs either closes on the same line (end marker
found at or after the start occurrence's end; extra non-blank text after
the end marker also counts the line as code), or opens a block when the
end marker is absent, or - when the end marker occurs only before the
start occurrence's end - takes no action and the next pair is tried. -/
def blockScan (st : Option (List Char)) (pairs : List (List Char × List Char))
    (lc : List Char) : BlockOut :=
  match pairs with
  | [] => ⟨0, 0, st, false⟩
  | (s, e) :: rest =>
    match st with
    | some endMarker =>
      ⟨1, 0, if subContains lc endMarker then none else some endMarker, true⟩
    | none =>
      match subFind lc s with
      | some si =>
        if subContains lc e then
          match subFindFrom lc e (si + s.length) with
          | some ei =>
            ⟨1, if pyStrip (lc.drop (ei + e.length)) = [] then 0 else 1, none, true⟩
          | none => blockScan none rest lc
        else ⟨1, 0, some e, true⟩
      | none => blockScan none rest lc

/-- One iteration of the per-line loop of `analyze_file` (lines 119-186):
blank check first, then the multi-line-comment loop, then the single-line
marker check, else the line is code. -/
def scanLine (cfg : LanguageConfig) (acc : Metrics × Option (List Char))
    (line : List Char) : Metrics × Option (List Char) :=
  let m := acc.1
  let st := acc.2
  let stripped := pyStrip line
  if stripped = [] then
    ({ m with empty_lines := m.empty_lines + 1 }, st)
  else
    let r := blockScan st cfg.multiLineComment stripped
    if r.consumed then
      ({ m with comment_lines := m.comment_lines + r.dComment,
                code_lines := m.code_lines + r.dCode }, r.state)
    else if cfg.singleLineComment.any (fun mk => !mk.isEmpty && mk.isPrefixOf stripped) then
      ({ m with comment_lines := m.comment_lines + 1 }, st)
    else
      ({ m with code_lines := m.code_lines + 1 }, st)

/-- `CodeAnalyzer.analyze_file` on a file already split into lines:
`total_lines = len(lines)`, the other counters start at zero, and the
scanner starts outside any block comment. -/
def analyzeLines (cfg : LanguageConfig) (lines : List (List Char)) : Metrics :=
  (lines.foldl (scanLine cfg) (⟨lines.length, 0, 0, 0⟩, none)).1

/-- `analyzeLines` on ordinary strings. -/
def analyzeStrings (cfg : LanguageConfig) (lines : List String) : Metrics :=
  analyzeLines cfg (lines.map String.data)

/-- `DEFAULT_LANGUAGES["C/C++"]`. -/
def cCppConfig : LanguageConfig :=
  { extensions := [".c", ".cpp", ".cxx", ".cc", ".h", ".hpp", ".hxx"]
    singleLineComment := ["//".data]
    multiLineComment := [("/*".data, "*/".data)]
    stringDelimiters := ['"', '\x27'] }

/-- `DEFAULT_LANGUAGES["Python"]`. -/
def pythonConfig : LanguageConfig :=
  { extensions := [".py", ".pyw"]
    singleLineComment := ["#".data]
    multiLineComment := [("\"\"\"".data, "\"\"\"".data), ("'''".data, "'''".data)]
    stringDelimiters := ['"', '\x27'] }

/-- `DEFAULT_LANGUAGES["HTML/CSS"]` (the one default language with two
block-comment pairs). -/
def htmlCssConfig : LanguageConfig :=
  { extensions := [".html", ".htm", ".css", ".scss", ".sass", ".less"]
    singleLineComment := ["//".data]
    multiLineComment := [("<!--".data, "-->".data), ("/*".data, "*/".data)]
    stringDelimiters := ['"', '\x27'] }

example : analyzeStrings pythonConfig ["# header", "", "code()"] = ⟨3, 1, 1, 1⟩ := by decide
example : analyzeStrings cCppConfig ["/* a */ int x;"] = ⟨1, 0, 1, 1⟩ := by decide
example : analyzeStrings cCppConfig ["/* start", "middle", "end */"] = ⟨3, 0, 3, 0⟩ := by decide
example : analyzeStrings cCppConfig ["// /* x */ y"] = ⟨1, 0, 1, 1⟩ := by decide
example : (blockScan none htmlCssConfig.multiLineComment "--> <!-- /*".data).state
    = some "*/".data := by decide

/-! ## Helper lemmas about the block-comment pair loop -/

theorem subContains_eq_false_iff {hay needle : List Char} :
    subContains hay needle = false ↔ subFind hay needle = none := by
  unfold subContains
  cases subFind hay needle <;> simp

theorem subFind_drop_isSome (l : List Char) (k : Nat) (n : List Char)
    (h : (subFind (l.drop k) n).isSome = true) : (subFind l n).isSome = true := by
  induction l generalizing k with
  | nil => simpa using h
  | cons c t ih =>
    cases k with
    | zero => simpa using h
    | succ k' =>
      have ht : (subFind t n).isSome = true := ih k' (by simpa using h)
      rw [subFind]
      split
      · simp
      · simpa using ht

theorem subContains_of_subFindFrom {lc e : List Char} {k ei : Nat}
    (h : subFindFrom lc e k = some ei) : subContains lc e = true := by
  unfold subFindFrom at h
  unfold subContains
  refine subFind_drop_isSome lc k e ?_
  cases hf : subFind (lc.drop k) e with
  | none => rw [hf] at h; simp at h
  | some _ => simp

theorem blockScan_skip {s e lc : List Char} {rest : List (List Char × List Char)}
    (h : subContains lc s = false) :
    blockScan none ((s, e) :: rest) lc = blockScan none rest lc := by
  have hf : subFind lc s = none := subContains_eq_false_iff.mp h
  simp [blockScan, hf]

theorem blockScan_skipAll (lc : List Char) (pre rest : List (List Char × List Char))
    (h : ∀ q ∈ pre, subContains lc q.1 = false) :
    blockScan none (pre ++ rest) lc = blockScan none rest lc := by
  induction pre with
  | nil => rfl
  | cons q t ih =>
    obtain ⟨s, e⟩ := q
    rw [List.cons_append, blockScan_skip (h (s, e) (by simp)),
      ih (fun p hp => h p (by simp [hp]))]

theorem blockScan_open {s e lc : List Char} {si : Nat} {rest : List (List Char × List Char)}
    (hs : subFind lc s = some si) (he : subContains lc e = false) :
    blockScan none ((s, e) :: rest) lc = ⟨1, 0, some e, true⟩ := by
  simp [blockScan, hs, he]

theorem blockScan_sameLine {s e lc : List Char} {si ei : Nat}
    {rest : List (List Char × List Char)}
    (hs : subFind lc s = some si)
    (he : subFindFrom lc e (si + s.length) = some ei) :
    blockScan none ((s, e) :: rest) lc
      = ⟨1, if pyStrip (lc.drop (ei + e.length)) = [] then 0 else 1, none, true⟩ := by
  have hce : subContains lc e = true := subContains_of_subFindFrom he
  simp [blockScan, hs, hce, he]

/-! ## Claims C1, C3, C4 about the line scanner -/

/-- Claim C1 counterexample: on the C-classified line consisting of the
end marker, a space, and the start marker, the pair's start marker occurs
in the line and no matching end marker follows it on the same line, yet
the scanner does not enter block-comment state and counts the line as
code: the source opens a block only when the end marker is absent from
the line altogether (`end_marker in line_comment_check` is false), and
when the end marker occurs only before the start occurrence the pair is
passed over with no state change. -/
theorem scanLine_opens_block_counterexample :
    subFind (pyStrip "*/ /*".data) "/*".data = some 3 ∧
    subFindFrom (pyStrip "*/ /*".data) "*/".data (3 + 2) = none ∧
    scanLine cCppConfig (⟨1, 0, 0, 0⟩, none) "*/ /*".data = (⟨1, 0, 0, 1⟩, none) :=
  ⟨by decide, by decide, by decide⟩

/-- Claim C1 (amended): on a non-blank line processed outside any block
comment, when the pair reached by the scan (the first configured pair
whose start marker occurs in the line; earlier pairs' start markers are
absent) has its start marker in the line and its end marker nowhere in
the line, the scanner enters block-comment state recording that pair's
end marker, counts the line as a comment line (and as nothing else), and
the remaining pairs are never consulted.  (When the end marker does occur
in the line, but only before or overlapping the start occurrence, the
code instead skips the pair, as the counterexample shows.) -/
theorem scanLine_opens_block (cfg : LanguageConfig) (m : Metrics) (line : List Char)
    (pre post : List (List Char × List Char)) (s e : List Char)
    (hcfg : cfg.multiLineComment = pre ++ (s, e) :: post)
    (hpre : ∀ q ∈ pre, subContains (pyStrip line) q.1 = false)
    (hs : subContains (pyStrip line) s = true)
    (he : subContains (pyStrip line) e = false)
    (hnb : pyStrip line ≠ []) :
    scanLine cfg (m, none) line
      = ({ m with comment_lines := m.comment_lines + 1 }, some e) := by
  obtain ⟨si, hsi⟩ := Option.isSome_iff_exists.mp hs
  have hb : blockScan none cfg.multiLineComment (pyStrip line) = ⟨1, 0, some e, true⟩ := by
    rw [hcfg, blockScan_skipAll _ pre _ hpre, blockScan_open hsi he]
  simp [scanLine, hnb, hb]

theorem scanLine_opens_block_witness :
    subContains (pyStrip "x = 1; /* open".data) "/*".data = true ∧
    subContains (pyStrip "x = 1; /* open".data) "*/".data = false ∧
    scanLine cCppConfig (⟨5, 0, 0, 0⟩, none) "x = 1; /* open".data
      = (⟨5, 0, 1, 0⟩, some "*/".data) :=
  ⟨by decide, by decide,
    scanLine_opens_block cCppConfig ⟨5, 0, 0, 0⟩ "x = 1; /* open".data
      [] [] "/*".data "*/".data rfl (by simp) (by decide) (by decide) (by decide)⟩

/-- Claim C3: a line whose stripped form is empty is counted as a blank
line and nothing else; the blank check runs before any comment-state
inspection, so the block-comment state is neither consulted nor changed -
in particular a whitespace-only line inside an open block comment is
counted as blank, not as a comment line. -/
theorem scanLine_blank (cfg : LanguageConfig) (m : Metrics) (st : Option (List Char))
    (line : List Char) (h : pyStrip line = []) :
    scanLine cfg (m, st) line = ({ m with empty_lines := m.empty_lines + 1 }, st) := by
  simp [scanLine, h]

theorem scanLine_blank_witness :
    pyStrip " \t ".data = [] ∧
    scanLine cCppConfig (⟨4, 1, 2, 0⟩, some "*/".data) " \t ".data
      = (⟨4, 2, 2, 0⟩, some "*/".data) :=
  ⟨by decide, scanLine_blank cCppConfig ⟨4, 1, 2, 0⟩ (some "*/".data) " \t ".data (by decide)⟩

/-- Claim C4: when a block comment opens and closes on one line (the pair's
end marker occurs at or after the end of the first start-marker occurrence),
the line is counted as a comment line, and additionally as a code line
exactly when non-whitespace text follows the end marker's closing position;
in particular the C-classified one-line file containing only
comment-then-code yields totalLines=1, commentLines=1, codeLines=1. -/
theorem scanLine_sameLine_comment_and_code :
    (∀ (cfg : LanguageConfig) (m : Metrics) (line : List Char)
      (pre post : List (List Char × List Char)) (s e : List Char) (si ei : Nat),
      cfg.multiLineComment = pre ++ (s, e) :: post →
      (∀ q ∈ pre, subContains (pyStrip line) q.1 = false) →
      subFind (pyStrip line) s = some si →
      subFindFrom (pyStrip line) e (si + s.length) = some ei →
      pyStrip line ≠ [] →
      scanLine cfg (m, none) line
        = ({ m with comment_lines := m.comment_lines + 1,
                    code_lines := m.code_lines +
                      (if pyStrip ((pyStrip line).drop (ei + e.length)) = []
                       then 0 else 1) }, none)) ∧
    analyzeStrings cCppConfig ["/* a */ int x;"] = ⟨1, 0, 1, 1⟩ := by
  constructor
  · intro cfg m line pre post s e si ei hcfg hpre hs he hnb
    have hb : blockScan none cfg.multiLineComment (pyStrip line)
        = ⟨1, if pyStrip ((pyStrip line).drop (ei + e.length)) = [] then 0 else 1,
            none, true⟩ := by
      rw [hcfg, blockScan_skipAll _ pre _ hpre, blockScan_sameLine hs he]
    simp [scanLine, hnb, hb]
  · decide

theorem scanLine_sameLine_witness :
    subFind (pyStrip "/* a */ int x;".data) "/*".data = some 0 ∧
    subFindFrom (pyStrip "/* a */ int x;".data) "*/".data 2 = some 5 ∧
    scanLine cCppConfig (⟨1, 0, 0, 0⟩, none) "/* a */ int x;".data
      = (⟨1, 0, 1, 1⟩, none) := by
  refine ⟨by decide, by decide, ?_⟩
  have h := scanLine_sameLine_comment_and_code.1 cCppConfig ⟨1, 0, 0, 0⟩
    "/* a */ int x;".data [] [] "/*".data "*/".data 0 5 rfl (by simp)
    (by decide) (by decide) (by decide)
  simpa using h

/-! ## Claim C2: single-line comment lines -/

/-- Claim C2 counterexample: the C-classified line consisting solely of the
single-line marker followed by text, where the text itself contains a
same-line block comment with code after it, is counted as a code line as
well: the scanner runs the block-comment check before the single-line
check, so the file yields codeLines = 1, contradicting the claim that the
code-line counter is not incremented. -/
theorem singleLine_counterexample :
    ("//".data).isPrefixOf (pyStrip "// /* x */ y".data) = true ∧
    "//".data ∈ cCppConfig.singleLineComment ∧
    analyzeStrings cCppConfig ["// /* x */ y"] = ⟨1, 0, 1, 1⟩ :=
  ⟨by decide, by decide, by decide⟩

/-- Claim C2 (amended): for a line consisting solely of a single-line
comment marker followed by text (arbitrary leading whitespace allowed),
provided no configured block-comment start marker occurs in the stripped
line, scanning the line increments the comment-line counter by exactly 1
and leaves the code-line counter unchanged, whatever the block-comment
state.  (Without the proviso the block-comment branch runs first and a
same-line block comment inside the text can additionally count the line
as code, as the counterexample shows.) -/
theorem scanLine_single_marker (cfg : LanguageConfig) (m : Metrics)
    (st : Option (List Char)) (line marker : List Char)
    (hm : marker ∈ cfg.singleLineComment) (hne : marker ≠ [])
    (hpref : marker.isPrefixOf (pyStrip line) = true)
    (hnoblock : ∀ q ∈ cfg.multiLineComment, subContains (pyStrip line) q.1 = false) :
    (scanLine cfg (m, st) line).1.comment_lines = m.comment_lines + 1 ∧
    (scanLine cfg (m, st) line).1.code_lines = m.code_lines := by
  have hnb : pyStrip line ≠ [] := by
    intro h
    rw [h] at hpref
    cases marker with
    | nil => exact hne rfl
    | cons a t => simp [List.isPrefixOf] at hpref
  have hany : cfg.singleLineComment.any
      (fun mk => !mk.isEmpty && mk.isPrefixOf (pyStrip line)) = true := by
    refine List.any_eq_true.mpr ⟨marker, hm, ?_⟩
    simp [hpref, hne]
  cases st with
  | none =>
    have hb : blockScan none cfg.multiLineComment (pyStrip line)
        = ⟨0, 0, none, false⟩ := by
      have h := blockScan_skipAll (pyStrip line) cfg.multiLineComment [] hnoblock
      simpa using h
    simp [scanLine, hnb, hb, hany]
  | some endMarker =>
    cases hml : cfg.multiLineComment with
    | nil => simp [scanLine, hnb, blockScan, hml, hany]
    | cons p rest =>
      obtain ⟨s, e⟩ := p
      simp [scanLine, hnb, hml, blockScan]

theorem scanLine_single_marker_witness :
    "#".data ∈ pythonConfig.singleLineComment ∧
    ("#".data).isPrefixOf (pyStrip "   # note".data) = true ∧
    (scanLine pythonConfig (⟨3, 0, 0, 0⟩, none) "   # note".data).1.comment_lines = 1 ∧
    (scanLine pythonConfig (⟨3, 0, 0, 0⟩, none) "   # note".data).1.code_lines = 0 := by
  have h := scanLine_single_marker pythonConfig ⟨3, 0, 0, 0⟩ none "   # note".data
    "#".data (by decide) (by decide) (by decide) (by decide)
  exact ⟨by decide, by decide, h.1, h.2⟩

/-! ## Claim C5: ordering of block-comment pairs -/

/-- Claim C5 counterexample: with the HTML/CSS pair list
`[(<!--, -->), (/*, */)]`, on the line consisting of the three markers
`-->`, `<!--`, `/*` (in that order) the first configured pair's start
marker `<!--` occurs in the line, yet the scan opens a block comment with
the second pair's end marker `*/` as the active end marker: the first
pair's end marker occurs only before the start occurrence, so that pair
takes no action and the second pair is tried after all.  Observably, the
following `-->` line does not close the block, so the file
`["--> <!-- /*", "-->", "x"]` yields 3 comment lines and 0 code lines,
whereas first-pair-wins semantics would close the block at line 2 and
count `x` as code. -/
theorem pairOrder_counterexample :
    htmlCssConfig.multiLineComment = [("<!--".data, "-->".data), ("/*".data, "*/".data)] ∧
    subContains "--> <!-- /*".data "<!--".data = true ∧
    (blockScan none htmlCssConfig.multiLineComment "--> <!-- /*".data).state
      = some "*/".data ∧
    some "*/".data ≠ some "-->".data ∧
    analyzeStrings htmlCssConfig ["--> <!-- /*", "-->", "x"] = ⟨3, 0, 3, 0⟩ :=
  ⟨rfl, by decide, by decide, by decide, by decide⟩

/-- Claim C5 (amended): outside a block comment, pairs are tried in
configured order, and the first pair whose start marker occurs in the line
wins - the rest of the pair list is irrelevant, even when a later pair's
start marker occurs at an earlier position in the line - provided that
winning pair takes an action, i.e. unless its end marker occurs in the
line but not at or after the end of its first start-marker occurrence
(in that quirk case the pair is passed over and later pairs are tried,
as the counterexample shows). -/
theorem scanLine_first_pair_wins (cfg : LanguageConfig) (m : Metrics)
    (line : List Char) (pre post : List (List Char × List Char))
    (s e : List Char) (si : Nat)
    (hcfg : cfg.multiLineComment = pre ++ (s, e) :: post)
    (hpre : ∀ q ∈ pre, subContains (pyStrip line) q.1 = false)
    (hs : subFind (pyStrip line) s = some si)
    (hnq : subContains (pyStrip line) e = true →
      (subFindFrom (pyStrip line) e (si + s.length)).isSome = true) :
    scanLine cfg (m, none) line
      = scanLine { cfg with multiLineComment := [(s, e)] } (m, none) line := by
  by_cases hnb : pyStrip line = []
  · simp [scanLine, hnb]
  · have hb : blockScan none cfg.multiLineComment (pyStrip line)
        = blockScan none [(s, e)] (pyStrip line) := by
      rw [hcfg, blockScan_skipAll _ pre _ hpre]
      by_cases hce : subContains (pyStrip line) e = true
      · obtain ⟨ei, hei⟩ := Option.isSome_iff_exists.mp (hnq hce)
        rw [blockScan_sameLine hs hei, blockScan_sameLine hs hei]
      · have hce' : subContains (pyStrip line) e = false := by
          simpa using hce
        rw [blockScan_open hs hce', blockScan_open hs hce']
    simp [scanLine, hnb, hb]

theorem scanLine_first_pair_wins_witness :
    htmlCssConfig.multiLineComment
      = [] ++ ("<!--".data, "-->".data) :: [("/*".data, "*/".data)] ∧
    subFind (pyStrip "<!-- note".data) "<!--".data = some 0 ∧
    scanLine htmlCssConfig (⟨2, 0, 0, 0⟩, none) "<!-- note".data
      = scanLine { htmlCssConfig with
          multiLineComment := [("<!--".data, "-->".data)] } (⟨2, 0, 0, 0⟩, none)
          "<!-- note".data :=
  ⟨rfl, by decide,
    scanLine_first_pair_wins htmlCssConfig ⟨2, 0, 0, 0⟩ "<!-- note".data
      [] [("/*".data, "*/".data)] "<!--".data "-->".data 0 rfl (by simp)
      (by decide) (by decide)⟩

/-! ## Claim C10: counter invariants -/

theorem blockScan_bounds (pairs : List (List Char × List Char))
    (st : Option (List Char)) (lc : List Char) :
    (blockScan st pairs lc).dComment ≤ 1 ∧
    (blockScan st pairs lc).dCode ≤ (blockScan st pairs lc).dComment ∧
    ((blockScan st pairs lc).consumed = true → (blockScan st pairs lc).dComment = 1) ∧
    ((blockScan st pairs lc).consumed = false →
      (blockScan st pairs lc).dComment = 0 ∧ (blockScan st pairs lc).dCode = 0) := by
  induction pairs generalizing st with
  | nil => simp [blockScan]
  | cons p rest ih =>
    obtain ⟨s, e⟩ := p
    cases st with
    | some endMarker => simp [blockScan]
    | none =>
      cases hf : subFind lc s with
      | none => simpa [blockScan, hf] using ih none
      | some si =>
        by_cases hce : subContains lc e = true
        · cases hei : subFindFrom lc e (si + s.length) with
          | some ei =>
            simp only [blockScan, hf, hce, hei, if_true]
            refine ⟨by simp, by split <;> simp, by simp, by simp⟩
          | none => simpa [blockScan, hf, hce, hei] using ih none
        · have hce' : subContains lc e = false := by simpa using hce
          simp [blockScan, hf, hce']

theorem scanLine_bounds (cfg : LanguageConfig) (m : Metrics)
    (st : Option (List Char)) (line : List Char) :
    (scanLine cfg (m, st) line).1.total_lines = m.total_lines ∧
    m.empty_lines ≤ (scanLine cfg (m, st) line).1.empty_lines ∧
    m.comment_lines ≤ (scanLine cfg (m, st) line).1.comment_lines ∧
    m.code_lines ≤ (scanLine cfg (m, st) line).1.code_lines ∧
    (scanLine cfg (m, st) line).1.empty_lines ≤ m.empty_lines + 1 ∧
    (scanLine cfg (m, st) line).1.comment_lines ≤ m.comment_lines + 1 ∧
    (scanLine cfg (m, st) line).1.code_lines ≤ m.code_lines + 1 ∧
    m.empty_lines + m.comment_lines + m.code_lines + 1
      ≤ (scanLine cfg (m, st) line).1.empty_lines
        + (scanLine cfg (m, st) line).1.comment_lines
        + (scanLine cfg (m, st) line).1.code_lines ∧
    (scanLine cfg (m, st) line).1.empty_lines
        + (scanLine cfg (m, st) line).1.comment_lines
        + (scanLine cfg (m, st) line).1.code_lines
      ≤ m.empty_lines + m.comment_lines + m.code_lines + 2 := by
  by_cases hnb : pyStrip line = []
  · simp [scanLine, hnb]
    omega
  · rcases hbs : blockScan st cfg.multiLineComment (pyStrip line) with ⟨dc, dk, st', consumed⟩
    have hb := blockScan_bounds cfg.multiLineComment st (pyStrip line)
    rw [hbs] at hb
    cases consumed with
    | true =>
      have h1 := hb.2.2.1 rfl
      have h2 := hb.2.1
      simp only at h1 h2
      simp [scanLine, hnb, hbs]
      omega
    | false =>
      by_cases hany : cfg.singleLineComment.any
          (fun mk => !mk.isEmpty && mk.isPrefixOf (pyStrip line)) = true
      · simp [scanLine, hnb, hbs, hany]
        omega
      · simp only [Bool.not_eq_true] at hany
        simp [scanLine, hnb, hbs, hany]
        omega

theorem foldScan_bounds (cfg : LanguageConfig) (lines : List (List Char)) :
    ∀ (m : Metrics) (st : Option (List Char)),
    (lines.foldl (scanLine cfg) (m, st)).1.total_lines = m.total_lines ∧
    (lines.foldl (scanLine cfg) (m, st)).1.empty_lines ≤ m.empty_lines + lines.length ∧
    (lines.foldl (scanLine cfg) (m, st)).1.comment_lines ≤ m.comment_lines + lines.length ∧
    (lines.foldl (scanLine cfg) (m, st)).1.code_lines ≤ m.code_lines + lines.length ∧
    m.empty_lines + m.comment_lines + m.code_lines + lines.length
      ≤ (lines.foldl (scanLine cfg) (m, st)).1.empty_lines
        + (lines.foldl (scanLine cfg) (m, st)).1.comment_lines
        + (lines.foldl (scanLine cfg) (m, st)).1.code_lines ∧
    (lines.foldl (scanLine cfg) (m, st)).1.empty_lines
        + (lines.foldl (scanLine cfg) (m, st)).1.comment_lines
        + (lines.foldl (scanLine cfg) (m, st)).1.code_lines
      ≤ m.empty_lines + m.comment_lines + m.code_lines + 2 * lines.length := by
  induction lines with
  | nil => intro m st; simp
  | cons l t ih =>
    intro m st
    have h1 := scanLine_bounds cfg m st l
    have h2 := ih (scanLine cfg (m, st) l).1 (scanLine cfg (m, st) l).2
    rw [Prod.mk.eta] at h2
    rw [List.foldl_cons]
    simp only [List.length_cons]
    omega

/-- Claim C10: for every scanned file, each of the blank-, comment- and
code-line counters lies between 0 and the total line count, and the three
together lie between the total and twice the total: every line contributes
at least one and at most two counts, the two-count case being a line
counted both as comment and as code. -/
theorem analyze_counters_bounded (cfg : LanguageConfig) (lines : List String) :
    (analyzeStrings cfg lines).empty_lines ≤ (analyzeStrings cfg lines).total_lines ∧
    (analyzeStrings cfg lines).comment_lines ≤ (analyzeStrings cfg lines).total_lines ∧
    (analyzeStrings cfg lines).code_lines ≤ (analyzeStrings cfg lines).total_lines ∧
    (analyzeStrings cfg lines).total_lines
      ≤ (analyzeStrings cfg lines).empty_lines + (analyzeStrings cfg lines).comment_lines
        + (analyzeStrings cfg lines).code_lines ∧
    (analyzeStrings cfg lines).empty_lines + (analyzeStrings cfg lines).comment_lines
        + (analyzeStrings cfg lines).code_lines
      ≤ 2 * (analyzeStrings cfg lines).total_lines := by
  have h := foldScan_bounds cfg (lines.map String.data)
    ⟨(lines.map String.data).length, 0, 0, 0⟩ none
  simp only at h
  unfold analyzeStrings analyzeLines
  omega

/-! ## Claim C8: file classification (`get_language_from_extension`) -/

/-- The remaining entries of `DEFAULT_LANGUAGES` (those not already defined
above), in source order. -/
def csharpConfig : LanguageConfig :=
  { extensions := [".cs"], singleLineComment := ["//".data]
    multiLineComment := [("/*".data, "*/".data)], stringDelimiters := ['"', '\x27'] }

def javaConfig : LanguageConfig :=
  { extensions := [".java"], singleLineComment := ["//".data]
    multiLineComment := [("/*".data, "*/".data)], stringDelimiters := ['"', '\x27'] }

def kotlinConfig : LanguageConfig :=
  { extensions := [".kt", ".kts"], singleLineComment := ["//".data]
    multiLineComment := [("/*".data, "*/".data)], stringDelimiters := ['"', '\x27'] }

def jsTsConfig : LanguageConfig :=
  { extensions := [".js", ".jsx", ".ts", ".tsx"], singleLineComment := ["//".data]
    multiLineComment := [("/*".data, "*/".data)]
    stringDelimiters := ['"', '\x27', '\x60'] }

def phpConfig : LanguageConfig :=
  { extensions := [".php", ".php3", ".php4", ".php5", ".phtml"]
    singleLineComment := ["//".data, "#".data]
    multiLineComment := [("/*".data, "*/".data)], stringDelimiters := ['"', '\x27'] }

def rubyConfig : LanguageConfig :=
  { extensions := [".rb", ".rbw", ".rake"], singleLineComment := ["#".data]
    multiLineComment := [("=begin".data, "=end".data)], stringDelimiters := ['"', '\x27'] }

def rustConfig : LanguageConfig :=
  { extensions := [".rs"], singleLineComment := ["//".data]
    multiLineComment := [("/*".data, "*/".data)], stringDelimiters := ['"', '\x27'] }

def goConfig : LanguageConfig :=
  { extensions := [".go"], singleLineComment := ["//".data]
    multiLineComment := [("/*".data, "*/".data)], stringDelimiters := ['"', '\x27'] }

def shellConfig : LanguageConfig :=
  { extensions := [".sh", ".bash", ".zsh", ".fish"], singleLineComment := ["#".data]
    multiLineComment := [], stringDelimiters := ['"', '\x27'] }

def assemblyConfig : LanguageConfig :=
  { extensions := [".asm", ".s", ".S"], singleLineComment := [";".data, "#".data]
    multiLineComment := [], stringDelimiters := ['"', '\x27'] }

/-- `CodeAnalyzer.DEFAULT_LANGUAGES`, in dict insertion order. -/
def defaultLanguages : List (String × LanguageConfig) :=
  [("C/C++", cCppConfig), ("C#", csharpConfig), ("Python", pythonConfig),
   ("Java", javaConfig), ("Kotlin", kotlinConfig),
   ("JavaScript/TypeScript", jsTsConfig), ("HTML/CSS", htmlCssConfig),
   ("PHP", phpConfig), ("Ruby", rubyConfig), ("Rust", rustConfig),
   ("Go", goConfig), ("Shell", shellConfig), ("Assembly", assemblyConfig)]

/-- Python `pathlib.Path(p).name`: the final path component
(trailing separators ignored). -/
def pathBasename (p : String) : String :=
  String.mk (((p.data.reverse.dropWhile (· = '/')).takeWhile (· ≠ '/')).reverse)

/-- Python `pathlib.Path(p).suffix`: the part of the final component from
its last dot, empty unless the dot is at an interior position
(`0 < i < len(name) - 1`), so dotfiles and trailing dots have no suffix. -/
def pySuffix (p : String) : String :=
  let name := (pathBasename p).data
  match name.reverse.findIdx? (· = '.') with
  | none => ""
  | some k =>
    let i := name.length - 1 - k
    if 0 < i ∧ i < name.length - 1 then String.mk (name.drop i) else ""

/-- Python `str.lower()` restricted to ASCII letters. -/
def lowerString (s : String) : String := String.mk (s.data.map Char.toLower)

/-- `Path(file_path).suffix.lower()` as computed at line 200 of the source. -/
def lowerExt (p : String) : String := lowerString (pySuffix p)

/-- `CodeAnalyzer.get_language_from_extension`: first language (in table
iteration order) whose extension list contains the lower-cased suffix,
else `"Unknown"`. -/
def get_language_from_extension (path : String)
    (configs : List (String × LanguageConfig)) : String :=
  match configs.find? (fun entry => entry.2.extensions.contains (lowerExt path)) with
  | some entry => entry.1
  | none => "Unknown"

/-- Claim C8: classification lower-cases the path's extension and returns
the first language in rule-table iteration (insertion) order whose
extension set contains it; when no language's extension set contains the
lower-cased extension, the result is `"Unknown"` (the function is total
and never raises). -/
theorem classify_first_match :
    (∀ (path : String) (configs : List (String × LanguageConfig)),
      (∀ entry ∈ configs, lowerExt path ∉ entry.2.extensions) →
      get_language_from_extension path configs = "Unknown") ∧
    (∀ (path : String) (pre rest : List (String × LanguageConfig))
      (name : String) (cfg : LanguageConfig),
      (∀ entry ∈ pre, lowerExt path ∉ entry.2.extensions) →
      lowerExt path ∈ cfg.extensions →
      get_language_from_extension path (pre ++ (name, cfg) :: rest) = name) := by
  constructor
  · intro path configs h
    have hnone : configs.find?
        (fun entry => entry.2.extensions.contains (lowerExt path)) = none := by
      refine List.find?_eq_none.mpr (fun entry he => ?_)
      simpa [List.elem_iff] using h entry he
    unfold get_language_from_extension
    rw [hnone]
  · intro path pre rest name cfg hpre hmem
    induction pre with
    | nil =>
      have hp : cfg.extensions.contains (lowerExt path) = true :=
        List.elem_iff.mpr hmem
      unfold get_language_from_extension
      rw [List.nil_append]
      simp [List.find?_cons, hmem]
    | cons a t ih =>
      have ha : a.2.extensions.contains (lowerExt path) = false := by
        cases h1 : a.2.extensions.contains (lowerExt path) with
        | false => rfl
        | true => exact absurd (List.elem_iff.mp h1) (hpre a (by simp))
      have ih' := ih (fun entry he => hpre entry (by simp [he]))
      unfold get_language_from_extension at ih' ⊢
      rw [List.cons_append]
      simp only [List.find?_cons, ha]
      exact ih'

theorem classify_first_match_witness :
    lowerExt "src/app/Main.PY" = ".py" ∧
    ".py" ∈ pythonConfig.extensions ∧
    get_language_from_extension "src/app/Main.PY" defaultLanguages = "Python" ∧
    get_language_from_extension "src/app/README" defaultLanguages = "Unknown" := by
  refine ⟨by decide, by decide, ?_, ?_⟩
  · have h := classify_first_match.2 "src/app/Main.PY"
      [("C/C++", cCppConfig), ("C#", csharpConfig)]
      [("Java", javaConfig), ("Kotlin", kotlinConfig),
       ("JavaScript/TypeScript", jsTsConfig), ("HTML/CSS", htmlCssConfig),
       ("PHP", phpConfig), ("Ruby", rubyConfig), ("Rust", rustConfig),
       ("Go", goConfig), ("Shell", shellConfig), ("Assembly", assemblyConfig)]
      "Python" pythonConfig (by decide) (by decide)
    exact h
  · exact classify_first_match.1 "src/app/README" defaultLanguages (by decide)

/-! ## Claim C9: include/exclude filtering (`collect_files`) -/

/-- Python `sub in hay` on strings. -/
def strContains (hay sub : String) : Bool := subContains hay.data sub.data

/-- The per-file include/exclude decision of
`ModernCodeCounterApp.collect_files` (lines 819-839): a file is skipped if
any exclude pattern is a non-empty, non-`"*"` substring of its path;
otherwise it is included if the include patterns contain `"*"` or some
non-empty include pattern is a substring of the path. -/
def collect_files_filter (includePatterns excludePatterns : List String)
    (filePath : String) : Bool :=
  if excludePatterns.any (fun p => p != "" && p != "*" && strContains filePath p) then
    false
  else if includePatterns.contains "*" then true
  else includePatterns.any (fun p => p != "" && strContains filePath p)

/-- Claim C9: a candidate path is skipped whenever some exclude pattern is
a non-wildcard, non-empty substring of it (exclude wins over include);
otherwise it is included exactly when the include patterns contain `"*"`
or some non-empty include pattern is a substring of the path; an empty
include list with no wildcard includes nothing; and include `["*"]` with
exclude `["test"]` keeps exactly the paths not containing `"test"`. -/
theorem collect_files_filter_spec :
    (∀ (includePatterns excludePatterns : List String) (filePath p : String),
      p ∈ excludePatterns → p ≠ "" → p ≠ "*" → strContains filePath p = true →
      collect_files_filter includePatterns excludePatterns filePath = false) ∧
    (∀ (includePatterns excludePatterns : List String) (filePath : String),
      (∀ p ∈ excludePatterns, p = "" ∨ p = "*" ∨ strContains filePath p = false) →
      (collect_files_filter includePatterns excludePatterns filePath = true ↔
        "*" ∈ includePatterns ∨
          ∃ p ∈ includePatterns, p ≠ "" ∧ strContains filePath p = true)) ∧
    (∀ (excludePatterns : List String) (filePath : String),
      collect_files_filter [] excludePatterns filePath = false) ∧
    (∀ filePath : String,
      collect_files_filter ["*"] ["test"] filePath = !strContains filePath "test") := by
  refine ⟨?_, ?_, ?_, ?_⟩
  · intro inc exc path p hp hne hnw hsub
    have hany : exc.any (fun q => q != "" && q != "*" && strContains path q) = true :=
      List.any_eq_true.mpr ⟨p, hp, by simp [hne, hnw, hsub]⟩
    simp [collect_files_filter, hany]
  · intro inc exc path hexc
    have hany : exc.any (fun q => q != "" && q != "*" && strContains path q) = false := by
      refine List.any_eq_false.mpr (fun q hq => ?_)
      rcases hexc q hq with h | h | h <;> simp [h]
    by_cases hw : "*" ∈ inc
    · have : inc.contains "*" = true := List.elem_iff.mpr hw
      simp [collect_files_filter, hany, this, hw]
    · have : inc.contains "*" = false := by
        rcases h : inc.contains "*" with _ | _
        · rfl
        · exact absurd (List.elem_iff.mp h) hw
      simp only [collect_files_filter, hany, Bool.false_eq_true, if_false, this, if_true]
      rw [List.any_eq_true]
      constructor
      · rintro ⟨p, hp, hpp⟩
        refine Or.inr ⟨p, hp, ?_⟩
        simpa using hpp
      · rintro (h | ⟨p, hp, hne, hsub⟩)
        · exact absurd h hw
        · exact ⟨p, hp, by simp [hne, hsub]⟩
  · intro exc path
    by_cases hany : exc.any (fun q => q != "" && q != "*" && strContains path q) = true
    · simp [collect_files_filter, hany]
    · simp only [Bool.not_eq_true] at hany
      simp [collect_files_filter, hany]
  · intro path
    by_cases h : strContains path "test" = true
    · simp [collect_files_filter, h]
    · simp only [Bool.not_eq_true] at h
      simp [collect_files_filter, h]

theorem collect_files_filter_witness :
    collect_files_filter ["*"] ["test"] "a/test/b.c" = false ∧
    collect_files_filter ["*"] ["test"] "a/src/b.c"
      = !strContains "a/src/b.c" "test" ∧
    (collect_files_filter ["src"] [] "a/src/b.c" = true ↔
      "*" ∈ ["src"] ∨ ∃ p ∈ ["src"], p ≠ "" ∧ strContains "a/src/b.c" p = true) := by
  refine ⟨?_, ?_, ?_⟩
  · have h := collect_files_filter_spec.1 ["*"] ["test"] "a/test/b.c" "test"
      (by decide) (by decide) (by decide) (by decide)
    exact h
  · exact collect_files_filter_spec.2.2.2 "a/src/b.c"
  · exact collect_files_filter_spec.2.1 ["src"] [] "a/src/b.c" (by simp)

/-! ## Snapshot model: results, JSON export/import, comparison -/

/-- The per-file dict returned by `analyze_file` (lines 188-195), including
the path fields. -/
structure FileRecord where
  total_lines : Nat
  empty_lines : Nat
  comment_lines : Nat
  code_lines : Nat
  file_path : String
  file_name : String
deriving DecidableEq, Repr

/-- The per-language aggregate built in `analyze_directory`
(lines 782-795): the file list plus the four summed counters. -/
structure LangAgg where
  files : List FileRecord
  total_lines : Nat
  code_lines : Nat
  comment_lines : Nat
  empty_lines : Nat
deriving DecidableEq, Repr

/-- `self.results`: an insertion-ordered mapping language name to
aggregate. -/
abbrev ScanResults := List (String × LangAgg)

/-- The JSON documents written by `export_results` and read back by
`json.load` in `import_results` (numbers in these documents are the
non-negative line counters). -/
inductive Json where
  | num (n : Nat)
  | str (s : String)
  | arr (elems : List Json)
  | obj (fields : List (String × Json))

/-- Python dict key access `d[k]` / `d.get(k)` on a parsed JSON object. -/
def jget : List (String × Json) → String → Option Json
  | [], _ => none
  | (k, v) :: t, key => if k = key then some v else jget t key

def Json.asNat : Json → Option Nat
  | .num n => some n
  | _ => none

def Json.asStr : Json → Option String
  | .str s => some s
  | _ => none

def Json.asObj : Json → Option (List (String × Json))
  | .obj l => some l
  | _ => none

/-- JSON form of one per-file record, with the key order used by the
source dict literal. -/
def encodeFileRecord (f : FileRecord) : Json :=
  .obj [("total_lines", .num f.total_lines), ("empty_lines", .num f.empty_lines),
        ("comment_lines", .num f.comment_lines), ("code_lines", .num f.code_lines),
        ("file_path", .str f.file_path), ("file_name", .str f.file_name)]

/-- Reading one per-file record back out of a parsed snapshot (the fields
the display/compare code accesses). -/
def decodeFileRecord (j : Json) : Option FileRecord := do
  let o ← j.asObj
  let t ← (jget o "total_lines").bind Json.asNat
  let e ← (jget o "empty_lines").bind Json.asNat
  let c ← (jget o "comment_lines").bind Json.asNat
  let k ← (jget o "code_lines").bind Json.asNat
  let p ← (jget o "file_path").bind Json.asStr
  let n ← (jget o "file_name").bind Json.asStr
  pure ⟨t, e, c, k, p, n⟩

def decodeFileList : List Json → Option (List FileRecord)
  | [] => some []
  | j :: t =>
    match decodeFileRecord j, decodeFileList t with
    | some f, some fs => some (f :: fs)
    | _, _ => none

/-- JSON form of one language aggregate, with the key order of the dict
created at lines 783-789. -/
def encodeLangAgg (a : LangAgg) : Json :=
  .obj [("files", .arr (a.files.map encodeFileRecord)),
        ("total_lines", .num a.total_lines), ("code_lines", .num a.code_lines),
        ("comment_lines", .num a.comment_lines), ("empty_lines", .num a.empty_lines)]

def decodeLangAgg (j : Json) : Option LangAgg := do
  let o ← j.asObj
  let fjson ← (jget o "files").bind (fun v =>
    match v with
    | .arr l => some l
    | _ => none)
  let files ← decodeFileList fjson
  let t ← (jget o "total_lines").bind Json.asNat
  let k ← (jget o "code_lines").bind Json.asNat
  let c ← (jget o "comment_lines").bind Json.asNat
  let e ← (jget o "empty_lines").bind Json.asNat
  pure ⟨files, t, k, c, e⟩

/-- The `"results"` object of a snapshot. -/
def encodeResults (r : ScanResults) : Json :=
  .obj (r.map (fun entry => (entry.1, encodeLangAgg entry.2)))

def decodeResultsList : List (String × Json) → Option ScanResults
  | [] => some []
  | (k, v) :: t =>
    match decodeLangAgg v, decodeResultsList t with
    | some a, some rest => some ((k, a) :: rest)
    | _, _ => none

def decodeResults (j : Json) : Option ScanResults :=
  match j with
  | .obj l => decodeResultsList l
  | _ => none

/-- The document written by `export_results` (lines 1011-1020): directory,
timestamp, results, and the config block. -/
def exportData (directory timestamp : String)
    (includePatterns excludePatterns selectedLanguages : List String)
    (r : ScanResults) : Json :=
  .obj [("directory", .str directory), ("timestamp", .str timestamp),
        ("results", encodeResults r),
        ("config", .obj
          [("include_patterns", .arr (includePatterns.map .str)),
           ("exclude_patterns", .arr (excludePatterns.map .str)),
           ("selected_languages", .arr (selectedLanguages.map .str))])]

/-- `import_results` (line 1041): take `import_data.get("results", {})`
from the parsed document and interpret it as the results mapping. -/
def importResults (j : Json) : Option ScanResults :=
  match j.asObj with
  | none => none
  | some o => decodeResults ((jget o "results").getD (.obj []))

theorem decodeFileRecord_encode (f : FileRecord) :
    decodeFileRecord (encodeFileRecord f) = some f := rfl

theorem decodeFileList_encode (l : List FileRecord) :
    decodeFileList (l.map encodeFileRecord) = some l := by
  induction l with
  | nil => rfl
  | cons f t ih => simp [decodeFileList, decodeFileRecord_encode, ih]

theorem decodeLangAgg_encode (a : LangAgg) :
    decodeLangAgg (encodeLangAgg a) = some a := by
  obtain ⟨files, t, k, c, e⟩ := a
  simp [decodeLangAgg, encodeLangAgg, jget, Json.asObj, Json.asNat,
    decodeFileList_encode, Option.bind]

theorem decodeResultsList_encode (r : ScanResults) :
    decodeResultsList (r.map (fun entry => (entry.1, encodeLangAgg entry.2)))
      = some r := by
  induction r with
  | nil => rfl
  | cons p t ih => simp [decodeResultsList, decodeLangAgg_encode, ih]

/-- Claim C6: exporting a scan result to a snapshot document and importing
that document back yields exactly the original results mapping - in
particular all four counters agree at per-file and per-language
granularity (full structural equality of the `"results"` mapping). -/
theorem import_export_roundTrip (directory timestamp : String)
    (includePatterns excludePatterns selectedLanguages : List String)
    (r : ScanResults) :
    importResults (exportData directory timestamp includePatterns
      excludePatterns selectedLanguages r) = some r := by
  unfold importResults exportData
  simp only [Json.asObj]
  rw [show jget [("directory", Json.str directory), ("timestamp", Json.str timestamp),
    ("results", encodeResults r),
    ("config", Json.obj
      [("include_patterns", Json.arr (includePatterns.map Json.str)),
       ("exclude_patterns", Json.arr (excludePatterns.map Json.str)),
       ("selected_languages", Json.arr (selectedLanguages.map Json.str))])]
    "results" = some (encodeResults r) from by simp [jget]]
  unfold encodeResults decodeResults
  simp only [Option.getD_some]
  exact decodeResultsList_encode r

/-! ## Claim C7: comparison (`perform_comparison`) -/

def totalFilesOf (r : ScanResults) : Nat :=
  (r.map (fun entry => entry.2.files.length)).sum

def totalLinesOf (r : ScanResults) : Nat :=
  (r.map (fun entry => entry.2.total_lines)).sum

/-- The `{"files": [], "total_lines": 0, "code_lines": 0}` default used at
lines 1117-1118 for a language absent from one snapshot (only these three
fields are ever read from it; the remaining counters are 0 here too). -/
def emptyAgg : LangAgg := ⟨[], 0, 0, 0, 0⟩

/-- `results.get(language, default)`. -/
def lookupAgg (r : ScanResults) (name : String) : LangAgg :=
  (List.lookup name r).getD emptyAgg

/-- One per-language block of the comparison output: the three deltas the
source prints (file count, total lines, code lines), all `new - old`. -/
structure LangDelta where
  language : String
  filesDiff : Int
  linesDiff : Int
  codeDiff : Int
deriving DecidableEq, Repr

/-- The comparison output: overall file-count and total-line deltas plus
the per-language blocks. -/
structure ComparisonReport where
  filesDiff : Int
  linesDiff : Int
  languages : List LangDelta
deriving DecidableEq, Repr

/-- `sorted(set(results1.keys()) | set(results2.keys()))` (line 1112-1114). -/
def sortedUnionKeys (results1 results2 : ScanResults) : List String :=
  List.insertionSort (fun a b => a ≤ b)
    ((results1.map Prod.fst ++ results2.map Prod.fst).dedup)

/-- `ModernCodeCounterApp.perform_comparison` (lines 1085-1136), with the
display text abstracted to the numeric deltas it interpolates: overall
`new - old` differences and, for each language of the sorted key union,
the file/total/code differences with a missing language defaulted to
`emptyAgg`. -/
def perform_comparison (results1 results2 : ScanResults) : ComparisonReport :=
  { filesDiff := (totalFilesOf results2 : Int) - (totalFilesOf results1 : Int)
    linesDiff := (totalLinesOf results2 : Int) - (totalLinesOf results1 : Int)
    languages := (sortedUnionKeys results1 results2).map (fun language =>
      let data1 := lookupAgg results1 language
      let data2 := lookupAgg results2 language
      { language := language
        filesDiff := (data2.files.length : Int) - (data1.files.length : Int)
        linesDiff := (data2.total_lines : Int) - (data1.total_lines : Int)
        codeDiff := (data2.code_lines : Int) - (data1.code_lines : Int) }) }

theorem dedup_append_perm (l1 l2 : List String) :
    List.Perm ((l1 ++ l2).dedup) ((l2 ++ l1).dedup) := by
  refine (List.perm_ext_iff_of_nodup (List.nodup_dedup _) (List.nodup_dedup _)).mpr ?_
  intro a
  simp [List.mem_dedup, or_comm]

theorem sortedUnionKeys_comm (A B : ScanResults) :
    sortedUnionKeys A B = sortedUnionKeys B A := by
  unfold sortedUnionKeys
  exact List.eq_of_perm_of_sorted
    ((List.perm_insertionSort _ _).trans ((dedup_append_perm _ _).trans
      (List.perm_insertionSort _ _).symm))
    (List.sorted_insertionSort _ _) (List.sorted_insertionSort _ _)

/-- Claim C7: comparing a snapshot with itself gives all-zero deltas
(overall file count and total lines, and every per-language block);
comparing in the two orders gives entrywise negated deltas over the same
language list; and every per-language delta is the signed difference
`new - old` with a language absent from one snapshot counted as zero
files/lines there. -/
theorem perform_comparison_spec :
    (∀ A : ScanResults,
      (perform_comparison A A).filesDiff = 0 ∧
      (perform_comparison A A).linesDiff = 0 ∧
      ∀ d ∈ (perform_comparison A A).languages,
        d.filesDiff = 0 ∧ d.linesDiff = 0 ∧ d.codeDiff = 0) ∧
    (∀ A B : ScanResults,
      (perform_comparison B A).filesDiff = -(perform_comparison A B).filesDiff ∧
      (perform_comparison B A).linesDiff = -(perform_comparison A B).linesDiff ∧
      (perform_comparison B A).languages
        = (perform_comparison A B).languages.map
            (fun d => ⟨d.language, -d.filesDiff, -d.linesDiff, -d.codeDiff⟩)) ∧
    (∀ (A B : ScanResults) (d : LangDelta),
      d ∈ (perform_comparison A B).languages →
      d.filesDiff = ((lookupAgg B d.language).files.length : Int)
          - ((lookupAgg A d.language).files.length : Int) ∧
      d.linesDiff = ((lookupAgg B d.language).total_lines : Int)
          - ((lookupAgg A d.language).total_lines : Int) ∧
      d.codeDiff = ((lookupAgg B d.language).code_lines : Int)
          - ((lookupAgg A d.language).code_lines : Int)) := by
  refine ⟨?_, ?_, ?_⟩
  · intro A
    refine ⟨by simp [perform_comparison], by simp [perform_comparison], ?_⟩
    intro d hd
    obtain ⟨name, _, rfl⟩ := List.mem_map.mp hd
    simp
  · intro A B
    refine ⟨by simp [perform_comparison, neg_sub],
      by simp [perform_comparison, neg_sub], ?_⟩
    show (sortedUnionKeys B A).map _ = ((sortedUnionKeys A B).map _).map _
    rw [sortedUnionKeys_comm B A, List.map_map]
    refine List.map_congr_left (fun name _ => ?_)
    simp [Function.comp, neg_sub]
  · intro A B d hd
    obtain ⟨name, _, rfl⟩ := List.mem_map.mp hd
    exact ⟨rfl, rfl, rfl⟩

def sampleFileRecord : FileRecord := ⟨10, 2, 3, 5, "a/main.py", "main.py"⟩

def sampleResultsA : ScanResults := [("Python", ⟨[sampleFileRecord], 10, 5, 3, 2⟩)]

/-- A snapshot with no languages at all: the comparison then treats every
language of the other snapshot as having zero files/lines here. -/
def sampleResultsB : ScanResults := []

theorem perform_comparison_spec_witness :
    (perform_comparison sampleResultsA sampleResultsA).filesDiff = 0 ∧
    ((⟨"Python", 0, 0, 0⟩ : LangDelta)
        ∈ (perform_comparison sampleResultsA sampleResultsA).languages ∧
      (⟨"Python", 0, 0, 0⟩ : LangDelta).filesDiff = 0) ∧
    (perform_comparison sampleResultsB sampleResultsA).filesDiff
      = -(perform_comparison sampleResultsA sampleResultsB).filesDiff ∧
    ((⟨"Python", 0 - 1, 0 - 10, 0 - 5⟩ : LangDelta)
        ∈ (perform_comparison sampleResultsA sampleResultsB).languages ∧
      (⟨"Python", 0 - 1, 0 - 10, 0 - 5⟩ : LangDelta).linesDiff
        = ((lookupAgg sampleResultsB "Python").total_lines : Int)
          - ((lookupAgg sampleResultsA "Python").total_lines : Int)) := by
  refine ⟨(perform_comparison_spec.1 sampleResultsA).1,
    ⟨by decide, ((perform_comparison_spec.1 sampleResultsA).2.2
      ⟨"Python", 0, 0, 0⟩ (by decide)).1⟩,
    (perform_comparison_spec.2.1 sampleResultsA sampleResultsB).1,
    by decide, ?_⟩
  exact (perform_comparison_spec.2.2 sampleResultsA sampleResultsB
    ⟨"Python", 0 - 1, 0 - 10, 0 - 5⟩ (by decide)).2.1

end GetTotal
